import Mathlib

/-!
Verification of the image-to-video pipeline (`video_processor.py`).

The Python module is shallowly embedded: pure string-building functions are
translated to Lean functions on `String`/`Nat`/`ℚ`; the subprocess-driven
pipeline is translated to a pure function over an environment that supplies
the outcome of every external invocation, returning both the pipeline result
and the trace of external encoder commands invoked, in order.

Python `float` arithmetic is modelled by `ℚ`; all concrete inputs used in
counterexamples are exactly representable in binary floating point, so the
rational computation agrees with the float one there. Python `int()` applied
to a nonnegative value truncates, which is modelled by `Int.tdiv` on the
numerator/denominator of the rational.
-/

/-! ### Substring machinery

`hasSubList p s` decides whether the character list `p` occurs contiguously
inside `s`.  The lemmas below let one search a string of the shape
`literal ++ digits ++ literal ++ …` (as produced by the FFmpeg filter-graph
builder, whose only interpolated values are decimal frame counts): a pattern
that contains no digit either occurs inside one of the literal chunks or not
at all. -/

def hasSubList (p : List Char) : List Char → Bool
  | [] => p.isEmpty
  | c :: rest => p.isPrefixOf (c :: rest) || hasSubList p rest

/-- Whether `pat` occurs as a contiguous substring of `s`. -/
def strHas (s pat : String) : Bool :=
  hasSubList pat.data s.data

theorem hasSubList_nil (s : List Char) : hasSubList [] s = true := by
  induction s with
  | nil => rfl
  | cons c rest ih => simp [hasSubList, List.isPrefixOf]

theorem isPrefixOf_append {p a : List Char} (b : List Char)
    (h : p.isPrefixOf a = true) : p.isPrefixOf (a ++ b) = true := by
  induction p generalizing a with
  | nil => simp [List.isPrefixOf]
  | cons x p' ih =>
    cases a with
    | nil => simp [List.isPrefixOf] at h
    | cons y a' =>
      simp only [List.isPrefixOf, Bool.and_eq_true] at h
      simp only [List.cons_append, List.isPrefixOf, Bool.and_eq_true]
      exact ⟨h.1, ih h.2⟩

theorem hasSubList_append_left {p a : List Char} (b : List Char)
    (h : hasSubList p a = true) : hasSubList p (a ++ b) = true := by
  induction a with
  | nil =>
    simp [hasSubList, List.isEmpty_iff] at h
    subst h
    exact hasSubList_nil b
  | cons y a' ih =>
    simp only [hasSubList, Bool.or_eq_true] at h
    rcases h with h | h
    · simp only [List.cons_append, hasSubList, Bool.or_eq_true]
      exact Or.inl (isPrefixOf_append b h)
    · simp only [List.cons_append, hasSubList, Bool.or_eq_true]
      exact Or.inr (ih h)

theorem hasSubList_append_right {p : List Char} (a : List Char) {b : List Char}
    (h : hasSubList p b = true) : hasSubList p (a ++ b) = true := by
  induction a with
  | nil => simpa using h
  | cons y a' ih =>
    simp only [List.cons_append, hasSubList, Bool.or_eq_true]
    exact Or.inr ih

/-- A digit-free pattern that is a prefix of `a ++ d ++ b`, where `d` is a
nonempty run of digits, is already a prefix of `a`. -/
theorem isPrefixOf_of_digit_gap {p : List Char} (a d b : List Char)
    (hp : ∀ c ∈ p, c.isDigit = false) (hd : ∀ c ∈ d, c.isDigit = true)
    (hne : d ≠ []) (h : p.isPrefixOf (a ++ (d ++ b)) = true) :
    p.isPrefixOf a = true := by
  induction a generalizing p with
  | nil =>
    cases p with
    | nil => rfl
    | cons x p' =>
      cases d with
      | nil => exact absurd rfl hne
      | cons c d' =>
        simp only [List.nil_append, List.cons_append, List.isPrefixOf,
          Bool.and_eq_true, beq_iff_eq] at h
        have hx : x.isDigit = false := hp x (List.mem_cons_self x p')
        have hc : c.isDigit = true := hd c (List.mem_cons_self c d')
        rw [h.1] at hx
        rw [hc] at hx
        exact absurd hx (by simp)
  | cons y a' ih =>
    cases p with
    | nil => rfl
    | cons x p' =>
      simp only [List.cons_append, List.isPrefixOf, Bool.and_eq_true] at h
      simp only [List.isPrefixOf, Bool.and_eq_true]
      refine ⟨h.1, ih (fun c hc => hp c (List.mem_cons_of_mem x hc)) h.2⟩

/-- A digit-free pattern occurring in `d ++ b` with `d` all digits occurs in
`b`, unless it is empty. -/
theorem hasSubList_of_digit_run {p : List Char} (d b : List Char)
    (hp : ∀ c ∈ p, c.isDigit = false) (hd : ∀ c ∈ d, c.isDigit = true)
    (h : hasSubList p (d ++ b) = true) :
    hasSubList p b = true ∨ p = [] := by
  induction d with
  | nil => exact Or.inl (by simpa using h)
  | cons c d' ih =>
    simp only [List.cons_append, hasSubList, Bool.or_eq_true] at h
    rcases h with h | h
    · cases p with
      | nil => exact Or.inr rfl
      | cons x p' =>
        simp only [List.isPrefixOf, Bool.and_eq_true, beq_iff_eq] at h
        have hx : x.isDigit = false := hp x (List.mem_cons_self x p')
        have hc : c.isDigit = true := hd c (List.mem_cons_self c d')
        rw [h.1] at hx
        rw [hc] at hx
        exact absurd hx (by simp)
    · exact ih (fun c hc => hd c (List.mem_cons_of_mem _ hc)) h

/-- Splitting lemma: a digit-free pattern occurring in `a ++ (d ++ b)`, where
`d` is a nonempty digit run, occurs in `a` or in `b`. -/
theorem hasSubList_split_digits {p : List Char} (a d b : List Char)
    (hp : ∀ c ∈ p, c.isDigit = false) (hd : ∀ c ∈ d, c.isDigit = true)
    (hne : d ≠ []) (h : hasSubList p (a ++ (d ++ b)) = true) :
    hasSubList p a = true ∨ hasSubList p b = true := by
  induction a with
  | nil =>
    rcases hasSubList_of_digit_run d b hp hd (by simpa using h) with h' | h'
    · exact Or.inr h'
    · subst h'
      exact Or.inl (hasSubList_nil [])
  | cons y a' ih =>
    simp only [List.cons_append, hasSubList, Bool.or_eq_true] at h
    rcases h with h | h
    · have : p.isPrefixOf ((y :: a') ++ (d ++ b)) = true := by
        simpa using h
      have hpre := isPrefixOf_of_digit_gap (y :: a') d b hp hd hne this
      exact Or.inl (by simp [hasSubList, hpre])
    · rcases ih h with h' | h'
      · exact Or.inl (by simp [hasSubList, h'])
      · exact Or.inr h'

/-! ### Decimal representations are nonempty digit runs -/

theorem digitChar_isDigit {n : Nat} (h : n < 10) :
    (Nat.digitChar n).isDigit = true := by
  interval_cases n <;> decide

theorem toDigitsCore_digits (fuel : Nat) :
    ∀ (n : Nat) (ds : List Char), (∀ c ∈ ds, c.isDigit = true) →
      ∀ c ∈ Nat.toDigitsCore 10 fuel n ds, c.isDigit = true := by
  induction fuel with
  | zero => intro n ds hds; simpa [Nat.toDigitsCore] using hds
  | succ f ih =>
    intro n ds hds c hc
    simp only [Nat.toDigitsCore] at hc
    have hdigit : (Nat.digitChar (n % 10)).isDigit = true :=
      digitChar_isDigit (Nat.mod_lt n (by norm_num))
    by_cases h10 : n / 10 = 0
    · rw [if_pos h10] at hc
      rcases List.mem_cons.mp hc with h | h
      · rw [h]; exact hdigit
      · exact hds c h
    · rw [if_neg h10] at hc
      refine ih (n / 10) (Nat.digitChar (n % 10) :: ds) ?_ c hc
      intro c' hc'
      rcases List.mem_cons.mp hc' with h | h
      · rw [h]; exact hdigit
      · exact hds c' h

theorem toString_nat_digits (n : Nat) :
    ∀ c ∈ (toString n).data, c.isDigit = true := by
  intro c hc
  exact toDigitsCore_digits (n + 1) n [] (by intro c h; cases h) c hc

theorem toDigitsCore_length_ge (fuel : Nat) :
    ∀ (n : Nat) (ds : List Char),
      ds.length ≤ (Nat.toDigitsCore 10 fuel n ds).length := by
  induction fuel with
  | zero => intro n ds; simp [Nat.toDigitsCore]
  | succ f ih =>
    intro n ds
    simp only [Nat.toDigitsCore]
    by_cases h10 : n / 10 = 0
    · rw [if_pos h10]; simp
    · rw [if_neg h10]
      calc ds.length ≤ (Nat.digitChar (n % 10) :: ds).length := by simp
        _ ≤ _ := ih (n / 10) _

theorem toString_nat_ne_nil (n : Nat) : (toString n).data ≠ [] := by
  show Nat.toDigitsCore 10 (n + 1) n [] ≠ []
  simp only [Nat.toDigitsCore]
  by_cases h10 : n / 10 = 0
  · rw [if_pos h10]; simp
  · rw [if_neg h10]
    intro h
    have := toDigitsCore_length_ge n (n / 10) [Nat.digitChar (n % 10)]
    rw [h] at this
    simp at this

theorem hasSubList_split_digits_end {p : List Char} (a d : List Char)
    (hp : ∀ c ∈ p, c.isDigit = false) (hd : ∀ c ∈ d, c.isDigit = true)
    (hne : d ≠ []) (hpne : p ≠ [])
    (h : hasSubList p (a ++ d) = true) : hasSubList p a = true := by
  have h' : hasSubList p (a ++ (d ++ [])) = true := by simpa using h
  rcases hasSubList_split_digits a d [] hp hd hne h' with h2 | h2
  · exact h2
  · simp [hasSubList, List.isEmpty_iff] at h2
    exact absurd h2 hpne

/-! ### The filter-graph builder (`_build_image_filter`, lines 183-224)

A faithful transcription: each branch is the same concatenation of string
pieces as the Python source, with the interpolated `duration_frames` and
`fps` integers rendered through `toString`.  The four pieces of the
blur-and-zoom branch are named so that the claims can speak about the
background chain, the foreground chain and the overlay separately. -/

def filterSplitChunk : String := "split[bg][fg];"

def filterBlurBgChunk : String :=
  "[bg]scale=1920:1080:force_original_aspect_ratio=increase,crop=1920:1080,boxblur=80:10[blur];"

def filterFgZoomChunk (duration_frames fps : Nat) : String :=
  "[fg]scale=-1:1080:force_original_aspect_ratio=decrease," ++
  "zoompan=z='1+0.1*on/" ++ toString duration_frames ++
  "':x='iw/2-(iw/zoom/2)':y='ih/2-(ih/zoom/2)':" ++
  "d=" ++ toString duration_frames ++ ":s=1920x1080:fps=" ++ toString fps ++
  "[zoomed];"

def filterOverlayChunk : String :=
  "[blur][zoomed]overlay=(W-w)/2:(H-h)/2:shortest=1"

def _build_image_filter (enable_zoom enable_blur_bg : Bool)
    (duration_frames fps : Nat) : String :=
  if enable_blur_bg && enable_zoom then
    filterSplitChunk ++ filterBlurBgChunk ++
      filterFgZoomChunk duration_frames fps ++ filterOverlayChunk
  else if enable_blur_bg then
    "split[bg][fg];" ++
    "[bg]scale=1920:1080:force_original_aspect_ratio=increase,crop=1920:1080,boxblur=80:10[blur];" ++
    "[fg]scale='min(1920,iw)':'min(1080,ih)':force_original_aspect_ratio=decrease[img];" ++
    "[blur][img]overlay=(W-w)/2:(H-h)/2"
  else if enable_zoom then
    "scale=1920:1080:force_original_aspect_ratio=decrease,pad=1920:1080:(ow-iw)/2:(oh-ih)/2:black," ++
    "zoompan=z='1+0.1*on/" ++ toString duration_frames ++
    "':x='iw/2-(iw/zoom/2)':y='ih/2-(ih/zoom/2)':" ++
    "d=" ++ toString duration_frames ++ ":s=1920x1080:fps=" ++ toString fps
  else
    "scale=1920:1080:force_original_aspect_ratio=decrease," ++
    "pad=1920:1080:(ow-iw)/2:(oh-ih)/2:black"

theorem zoomOnly_data (df fps : Nat) :
    (_build_image_filter true false df fps).data =
      ("scale=1920:1080:force_original_aspect_ratio=decrease,pad=1920:1080:(ow-iw)/2:(oh-ih)/2:black,".data ++
        "zoompan=z='1+0.1*on/".data) ++
      ((toString df).data ++
        (("':x='iw/2-(iw/zoom/2)':y='ih/2-(ih/zoom/2)':".data ++ "d=".data) ++
          ((toString df).data ++
            (":s=1920x1080:fps=".data ++ (toString fps).data)))) := by
  show ("scale=1920:1080:force_original_aspect_ratio=decrease,pad=1920:1080:(ow-iw)/2:(oh-ih)/2:black," ++
    "zoompan=z='1+0.1*on/" ++ toString df ++
    "':x='iw/2-(iw/zoom/2)':y='ih/2-(ih/zoom/2)':" ++
    "d=" ++ toString df ++ ":s=1920x1080:fps=" ++ toString fps).data = _
  simp only [String.data_append, List.append_assoc]

theorem blurZoom_data (df fps : Nat) :
    (_build_image_filter true true df fps).data =
      filterSplitChunk.data ++ (filterBlurBgChunk.data ++
        ("[fg]scale=-1:1080:force_original_aspect_ratio=decrease,".data ++
          ("zoompan=z='1+0.1*on/".data ++ ((toString df).data ++
            ("':x='iw/2-(iw/zoom/2)':y='ih/2-(ih/zoom/2)':".data ++
              ("d=".data ++ ((toString df).data ++
                (":s=1920x1080:fps=".data ++ ((toString fps).data ++
                  ("[zoomed];".data ++ filterOverlayChunk.data)))))))))) := by
  show (filterSplitChunk ++ filterBlurBgChunk ++
      filterFgZoomChunk df fps ++ filterOverlayChunk).data = _
  unfold filterFgZoomChunk
  simp only [String.data_append, List.append_assoc]

theorem zoomOnly_digit_free_none (p : String)
    (hp : ∀ c ∈ p.data, c.isDigit = false) (hpne : p.data ≠ [])
    (h1 : hasSubList p.data
      ("scale=1920:1080:force_original_aspect_ratio=decrease,pad=1920:1080:(ow-iw)/2:(oh-ih)/2:black,".data ++
        "zoompan=z='1+0.1*on/".data) ≠ true)
    (h2 : hasSubList p.data
      ("':x='iw/2-(iw/zoom/2)':y='ih/2-(ih/zoom/2)':".data ++ "d=".data) ≠ true)
    (h3 : hasSubList p.data ":s=1920x1080:fps=".data ≠ true)
    (df fps : Nat) :
    strHas (_build_image_filter true false df fps) p = false := by
  cases hv : strHas (_build_image_filter true false df fps) p with
  | false => rfl
  | true =>
    exfalso
    have hv' : hasSubList p.data (_build_image_filter true false df fps).data = true := hv
    rw [zoomOnly_data] at hv'
    rcases hasSubList_split_digits _ _ _ hp (toString_nat_digits df)
      (toString_nat_ne_nil df) hv' with hA | hrest
    · exact h1 hA
    rcases hasSubList_split_digits _ _ _ hp (toString_nat_digits df)
      (toString_nat_ne_nil df) hrest with hB | hrest2
    · exact h2 hB
    exact h3 (hasSubList_split_digits_end _ _ hp (toString_nat_digits fps)
      (toString_nat_ne_nil fps) hpne hrest2)

theorem zoomOnly_no_split (df fps : Nat) :
    strHas (_build_image_filter true false df fps) "split" = false :=
  zoomOnly_digit_free_none "split" (by decide) (by decide)
    (by decide) (by decide) (by decide) df fps

theorem zoomOnly_no_overlay (df fps : Nat) :
    strHas (_build_image_filter true false df fps) "overlay" = false :=
  zoomOnly_digit_free_none "overlay" (by decide) (by decide)
    (by decide) (by decide) (by decide) df fps

theorem zoomOnly_has_zoompan (df fps : Nat) :
    strHas (_build_image_filter true false df fps) "zoompan" = true := by
  show hasSubList "zoompan".data (_build_image_filter true false df fps).data = true
  rw [zoomOnly_data]
  exact hasSubList_append_left _ (by decide)

theorem blurZoom_has_split (df fps : Nat) :
    strHas (_build_image_filter true true df fps) "split" = true := by
  show hasSubList "split".data (_build_image_filter true true df fps).data = true
  rw [blurZoom_data]
  exact hasSubList_append_left _ (by decide)

theorem blurZoom_has_overlay (df fps : Nat) :
    strHas (_build_image_filter true true df fps) "overlay" = true := by
  show hasSubList "overlay".data (_build_image_filter true true df fps).data = true
  rw [blurZoom_data]
  repeat apply hasSubList_append_right
  decide

theorem blurZoom_has_zoompan (df fps : Nat) :
    strHas (_build_image_filter true true df fps) "zoompan" = true := by
  show hasSubList "zoompan".data (_build_image_filter true true df fps).data = true
  rw [blurZoom_data]
  apply hasSubList_append_right
  apply hasSubList_append_right
  apply hasSubList_append_right
  apply hasSubList_append_left
  decide

/-- C3: for every frame count and fps, the filter for `zoom=false`,
`blurBackground=false` contains no zoompan and no overlay term; and across
all four flag combinations, a split together with an overlay term is present
iff `blurBackground` is set, and a time-varying `zoompan` expression is
present iff `zoom` is set. -/
theorem claim3_filter_graph_selection : ∀ df fps : Nat,
    (strHas (_build_image_filter false false df fps) "zoompan" = false ∧
      strHas (_build_image_filter false false df fps) "overlay" = false) ∧
    ∀ zoom blur : Bool,
      ((strHas (_build_image_filter zoom blur df fps) "split" = true ∧
        strHas (_build_image_filter zoom blur df fps) "overlay" = true) ↔ blur = true) ∧
      (strHas (_build_image_filter zoom blur df fps) "zoompan" = true ↔ zoom = true) := by
  intro df fps
  have hplain : _build_image_filter false false df fps =
      "scale=1920:1080:force_original_aspect_ratio=decrease," ++
      "pad=1920:1080:(ow-iw)/2:(oh-ih)/2:black" := rfl
  have hblur : _build_image_filter false true df fps =
      "split[bg][fg];" ++
      "[bg]scale=1920:1080:force_original_aspect_ratio=increase,crop=1920:1080,boxblur=80:10[blur];" ++
      "[fg]scale='min(1920,iw)':'min(1080,ih)':force_original_aspect_ratio=decrease[img];" ++
      "[blur][img]overlay=(W-w)/2:(H-h)/2" := rfl
  refine ⟨⟨by rw [hplain]; decide, by rw [hplain]; decide⟩, ?_⟩
  intro zoom blur
  cases zoom <;> cases blur
  · rw [hplain]; decide
  · rw [hblur]; decide
  · simp [zoomOnly_no_split df fps, zoomOnly_has_zoompan df fps]
  · simp [blurZoom_has_split df fps, blurZoom_has_overlay df fps,
      blurZoom_has_zoompan df fps]

/-- C5: in the `zoom=true`, `blurBackground=true` filter, the graph is the
background chain (split + cover-scale + crop + blur) followed by the
foreground chain and then the overlay; the `zoompan` zoom ramp occurs in the
foreground chain, while the background chain contains no `zoompan` and no
reference to the frame counter `on` (it is static), and the overlay chunk
contains no `zoompan` either. -/
theorem claim5_zoom_ramp_foreground_only : ∀ df fps : Nat,
    _build_image_filter true true df fps =
      (filterSplitChunk ++ filterBlurBgChunk) ++
        (filterFgZoomChunk df fps ++ filterOverlayChunk) ∧
    strHas (filterFgZoomChunk df fps) "zoompan" = true ∧
    strHas (filterSplitChunk ++ filterBlurBgChunk) "zoompan" = false ∧
    strHas (filterSplitChunk ++ filterBlurBgChunk) "on" = false ∧
    strHas filterOverlayChunk "zoompan" = false := by
  intro df fps
  refine ⟨?_, ?_, by decide, by decide, by decide⟩
  · show filterSplitChunk ++ filterBlurBgChunk ++
      filterFgZoomChunk df fps ++ filterOverlayChunk = _
    rw [String.append_assoc]
  · show hasSubList "zoompan".data (filterFgZoomChunk df fps).data = true
    unfold filterFgZoomChunk
    simp only [String.data_append, List.append_assoc]
    apply hasSubList_append_right
    apply hasSubList_append_left
    decide

/-! ### The image-set resolver (`get_image_files`, lines 71-82)

The directory listing is modelled as a list of entries (name plus the
`is_file` flag) supplied in iteration order.  `natsorted(images, key=lambda
x: x.name.lower())` is modelled by a stable sort (insertion sort — any two
stable sorts of the same list under the same key agree, and Python's sort is
stable) under the `natsort` key: the name is split into maximal digit runs
(compared by numeric value) and text runs (compared character-wise), with a
digit run sorting before a text run at the same position, exactly as
`natsort` achieves via its empty-leading-text padding. -/

structure DirEntry where
  name : String
  isFile : Bool
deriving DecidableEq

/-- The extension allow-list (line 73). -/
def image_extensions : List String :=
  [".jpg", ".jpeg", ".png", ".bmp", ".webp", ".tiff", ".gif"]

/-- Python `str.lower` (ASCII, which covers every extension compared). -/
def lowerStr (s : String) : String := String.mk (s.data.map Char.toLower)

/-- `pathlib.PurePath.suffix`: the part of the name from its last dot on,
empty when that dot is leading, trailing or absent. -/
def pathSuffix (name : String) : String :=
  let cs := name.data
  match ((List.range cs.length).filter (fun i => cs.getD i ' ' == '.')).getLast? with
  | none => ""
  | some i => if 0 < i ∧ i < cs.length - 1 then String.mk (cs.drop i) else ""

/-- One chunk of the natural-sort key.  Digit runs sit in the left summand
(their numeric value), text runs in the right; under `Sum.Lex` a number
chunk sorts before a text chunk at the same position, matching `natsort`. -/
abbrev NatChunk := Lex (Nat ⊕ List Char)

/-- Numeric value of a run of decimal digits. -/
def digitsVal (cs : List Char) : Nat :=
  cs.foldl (fun a c => a * 10 + (c.toNat - 48)) 0

/-- Split off the longest prefix satisfying `p`. -/
def spanBy (p : Char → Bool) : List Char → List Char × List Char
  | [] => ([], [])
  | c :: cs =>
    if p c then
      let r := spanBy p cs
      (c :: r.1, r.2)
    else ([], c :: cs)

/-- Chunking of a name into alternating digit/text runs.  The fuel argument
(always instantiated with the length of the list, which bounds the number of
chunks) keeps the recursion structural so that the definition evaluates. -/
def natChunksF : Nat → List Char → List NatChunk
  | 0, _ => []
  | _ + 1, [] => []
  | fuel + 1, c :: cs =>
    let r := spanBy (fun x => x.isDigit == c.isDigit) cs
    (if c.isDigit then toLex (Sum.inl (digitsVal (c :: r.1)))
     else toLex (Sum.inr (c :: r.1))) :: natChunksF fuel r.2

/-- The `natsort` key of a name. -/
def natKey (s : String) : List NatChunk := natChunksF s.data.length s.data

/-- The resolver's ordering: natural order on the lower-cased names. -/
def natLe (a b : DirEntry) : Prop :=
  natKey (lowerStr a.name) ≤ natKey (lowerStr b.name)

instance : DecidableRel natLe :=
  fun a b => inferInstanceAs
    (Decidable (natKey (lowerStr a.name) ≤ natKey (lowerStr b.name)))

instance : IsTotal DirEntry natLe :=
  ⟨fun a b => le_total (natKey (lowerStr a.name)) (natKey (lowerStr b.name))⟩

instance : IsTrans DirEntry natLe :=
  ⟨fun _ _ _ hab hbc => le_trans hab hbc⟩

/-- `get_image_files` (lines 71-82): keep the regular files whose lower-cased
suffix is on the allow-list, then natural-sort by lower-cased name. -/
def get_image_files (entries : List DirEntry) : List DirEntry :=
  List.insertionSort natLe (entries.filter (fun f =>
    f.isFile && image_extensions.contains (lowerStr (pathSuffix f.name))))

/-- C9: the resolver returns exactly the direct children that are regular
files with an allow-listed (case-insensitive) image extension, sorted by the
case-insensitive natural order on filenames (digit runs compare
numerically); in particular `img1.png, img10.png, img2.png` come out as
`img1.png, img2.png, img10.png`. -/
theorem claim9_image_set_resolver : ∀ entries : List DirEntry,
    (∀ e, e ∈ get_image_files entries ↔
      e ∈ entries ∧ e.isFile = true ∧
        image_extensions.contains (lowerStr (pathSuffix e.name)) = true) ∧
    (get_image_files entries).Sorted natLe ∧
    get_image_files
      [⟨"img1.png", true⟩, ⟨"img10.png", true⟩, ⟨"img2.png", true⟩] =
      [⟨"img1.png", true⟩, ⟨"img2.png", true⟩, ⟨"img10.png", true⟩] := by
  intro entries
  refine ⟨?_, ?_, by decide⟩
  · intro e
    rw [get_image_files, List.mem_insertionSort, List.mem_filter]
    simp [Bool.and_eq_true]
  · exact List.sorted_insertionSort natLe _

/-! ### The pipeline (`video_processor.py`, lines 85-495)

External effects are modelled by an environment `Env`: the outcome of the
FFmpeg presence check (`check_ffmpeg`), of the NVENC probe (`check_nvenc`),
the resolved image list, the audio-probe outcome, and the outcome
`Env.run c` of every encoder invocation `c`.  A pipeline call returns its
`(success, error)` pair together with the trace of encoder commands it
invoked, in order.  Files inside the job's temporary workspace are referred
to by their names. -/

/-- Hardware configuration constant (line 14). -/
def CPU_THREADS : Nat := 14

/-- Outcome of one external `ffmpeg` invocation: clean exit, nonzero exit
with the tool's decoded stderr, or an exception while launching. -/
inductive RunOutcome where
  | ok : RunOutcome
  | fail : String → RunOutcome
  | exn : String → RunOutcome
deriving DecidableEq

/-- `run_ffmpeg_command` (lines 85-109), returned pair: `(True, None)` on
success, `(False, stderr)` on a nonzero exit — the full stderr, untruncated
(line 105) — and `(False, str(e))` on an exception. -/
def run_ffmpeg_command : RunOutcome → Bool × Option String
  | .ok => (true, none)
  | .fail stderr => (false, some stderr)
  | .exn e => (false, some e)

/-- Python `s[:500]` (by code points). -/
def pyTake500 (s : String) : String := String.mk (s.data.take 500)

/-- The message `run_ffmpeg_command` hands to its optional progress callback
on a nonzero exit (line 104); only here is the stderr excerpt truncated to
500 characters.  No pipeline call site passes a callback. -/
def ffmpegCallbackMsg : RunOutcome → Option String
  | .fail stderr => some ("FFmpeg error: " ++ pyTake500 stderr)
  | _ => none

/-- One `xfade` stage of the dissolve chain (lines 386-402).  The numeric
fields hold the rational values interpolated into the filter expression. -/
structure XfadePart where
  inputLabel : String
  nextInput : String
  outputLabel : String
  duration : ℚ
  offset : ℚ
deriving DecidableEq

/-- One encoder invocation, structured; `renderArgv` rebuilds the exact
argument vector the source assembles for each of them. -/
inductive FfCmd where
  | clip (img : String) (t : ℚ) (zoom blur : Bool) (durationFrames : Nat)
      (gpu : Bool) (out : String)
  | concatCopy (listFile out : String)
  | xfadeChain (inputs : List String) (parts : List XfadePart)
      (gpu : Bool) (out : String)
  | mux (video audio : String) (gpu : Bool) (out : String)
deriving DecidableEq

/-- Rendering of a rational argument value (Python renders the float). -/
def ratStr (q : ℚ) : String := toString q

/-- The encoder-parameter block appended to every clip/xfade command
(lines 259-272, 345-358, 412-425 — identical in the three places). -/
def codecArgs (use_gpu : Bool) : List String :=
  if use_gpu then
    ["-c:v", "h264_nvenc", "-preset", "p4", "-cq", "18", "-gpu", "0"]
  else
    ["-threads", toString CPU_THREADS, "-c:v", "libx264",
      "-preset", "fast", "-crf", "18"]

/-- The `filter_complex` string of the dissolve chain (lines 383-404). -/
def renderXfadeFilter (parts : List XfadePart) : String :=
  String.intercalate ";" (parts.map (fun p =>
    p.inputLabel ++ p.nextInput ++ "xfade=transition=fade:duration=" ++
      ratStr p.duration ++ ":offset=" ++ ratStr p.offset ++ p.outputLabel))

/-- The argument vector of each encoder invocation, transcribed from
lines 250-274 (clip), 291-298 (concat), 406-427 (xfade chain) and
440-487 (final mux). -/
def renderArgv : FfCmd → List String
  | .clip img t zoom blur df gpu out =>
    ["ffmpeg", "-y", "-loop", "1", "-i", img, "-t", ratStr t, "-vf",
      _build_image_filter zoom blur df 30, "-r", toString (30 : Nat)] ++
      codecArgs gpu ++ ["-an", out]
  | .concatCopy listFile out =>
    ["ffmpeg", "-y", "-f", "concat", "-safe", "0", "-i", listFile,
      "-c", "copy", out]
  | .xfadeChain inputs parts gpu out =>
    ["ffmpeg", "-y"] ++ (inputs.map (fun f => ["-i", f])).flatten ++
      ["-filter_complex", renderXfadeFilter parts] ++
      codecArgs gpu ++ ["-an", out]
  | .mux video audio gpu out =>
    if gpu then
      ["ffmpeg", "-y", "-i", video, "-i", audio, "-c:v", "h264_nvenc",
        "-preset", "p4", "-tune", "hq", "-rc", "cbr", "-b:v", "10000k",
        "-maxrate", "10000k", "-bufsize", "20000k", "-spatial_aq", "1",
        "-temporal_aq", "1", "-r", "30", "-s", "1920x1080", "-c:a", "aac",
        "-b:a", "320k", "-ar", "48000", "-map", "0:v:0", "-map", "1:a:0",
        "-shortest", "-gpu", "0", out]
    else
      ["ffmpeg", "-y", "-threads", toString CPU_THREADS, "-i", video,
        "-i", audio, "-c:v", "libx264", "-preset", "fast", "-b:v", "10000k",
        "-maxrate", "10000k", "-bufsize", "20000k", "-r", "30",
        "-s", "1920x1080", "-c:a", "aac", "-b:a", "320k", "-ar", "48000",
        "-map", "0:v:0", "-map", "1:a:0", "-shortest", out]

/-- The encoder backend a command encodes with (`none` for the lossless
stream-copy concatenation, which re-encodes nothing). -/
def cmdGpu : FfCmd → Option Bool
  | .clip _ _ _ _ _ g _ => some g
  | .concatCopy _ _ => none
  | .xfadeChain _ _ g _ => some g
  | .mux _ _ g _ => some g

/-- The job environment. -/
structure Env where
  ffmpegOk : Bool
  nvencOk : Bool
  images : List String
  probe : Except String ℚ
  audioPath : String
  outputPath : String
  run : FfCmd → RunOutcome

/-- `get_audio_duration` (lines 48-68): the subprocess launch, the JSON
parse and the `format.duration` extraction are collapsed into one `Except`;
the bare `except:` turns any of those failures into the sentinel `0.0`. -/
def get_audio_duration : Except String ℚ → ℚ
  | .ok d => d
  | .error _ => 0

/-- Python string interpolation of an `Optional[str]` value. -/
def optStr : Option String → String
  | some s => s
  | none => "None"

/-- Python `int()` on a (finite) value: truncation toward zero. -/
def pyInt (q : ℚ) : ℤ := Int.tdiv q.num q.den

/-- Python `f"{i:04d}"`. -/
def pad4 (i : Nat) : String :=
  let s := toString i
  if s.length < 4 then String.mk (List.replicate (4 - s.length) '0') ++ s
  else s

/-- The name of the i-th intermediate clip, `f"clip_{i:04d}.mp4"`. -/
def clipName (i : Nat) : String := "clip_" ++ pad4 i ++ ".mp4"

/-- A pipeline call's `(success, error)` result and its trace of encoder
invocations, in order. -/
abbrev PipelineResult := (Bool × Option String) × List FfCmd

/-- The per-image render loop (lines 239-278 and 327-364): render each clip
in turn, stopping at the first failure.  Returns the invoked clip commands
and, on failure, the failing image name with the error value. -/
def renderClips (env : Env) (zoom blur gpu : Bool) (df : Nat) (t : ℚ) :
    List (Nat × String) → List FfCmd × Option (String × Option String)
  | [] => ([], none)
  | (i, img) :: rest =>
    let c := FfCmd.clip img t zoom blur df gpu (clipName i)
    match run_ffmpeg_command (env.run c) with
    | (true, _) =>
      let r := renderClips env zoom blur gpu df t rest
      (c :: r.1, r.2)
    | (false, e) => ([c], some (img, e))

/-- `_final_encode` (lines 440-495). -/
def _final_encode (env : Env) (video : String) (gpu : Bool) : PipelineResult :=
  let c := FfCmd.mux video env.audioPath gpu env.outputPath
  match run_ffmpeg_command (env.run c) with
  | (true, _) => ((true, none), [c])
  | (false, e) => ((false, some ("Lỗi xuất video: " ++ optStr e)), [c])

/-- `_create_video_simple` (lines 227-308). -/
def _create_video_simple (env : Env) (t : ℚ) (zoom blur gpu : Bool) :
    PipelineResult :=
  let df := (pyInt (t * 30)).toNat
  match renderClips env zoom blur gpu df t env.images.enum with
  | (tr, some (name, e)) =>
    ((false, some ("Lỗi xử lý ảnh " ++ name ++ ": " ++ optStr e)), tr)
  | (tr, none) =>
    let cc := FfCmd.concatCopy "concat.txt" "concat_output.mp4"
    match run_ffmpeg_command (env.run cc) with
    | (false, e) =>
      ((false, some ("Lỗi ghép video: " ++ optStr e)), tr ++ [cc])
    | (true, _) =>
      let r := _final_encode env "concat_output.mp4" gpu
      (r.1, tr ++ [cc] ++ r.2)

/-- The labels, duration and offset of the cross-fade stages (the loop of
lines 386-402): `offset = effective_duration - dissolve_duration` and the
i-th stage starts at `offset + i * (effective_duration -
dissolve_duration)`. -/
def xfadeParts (n : Nat) (effective_duration dissolve_duration : ℚ) :
    List XfadePart :=
  (List.range (n - 1)).map (fun i =>
    { inputLabel := if i = 0 then "[0:v]" else "[v" ++ toString i ++ "]"
      nextInput := "[" ++ toString (i + 1) ++ ":v]"
      outputLabel := if i = n - 2 then "" else "[v" ++ toString (i + 1) ++ "]"
      duration := dissolve_duration
      offset := (effective_duration - dissolve_duration) +
        i * (effective_duration - dissolve_duration) })

/-- `_create_video_with_dissolve` (lines 311-437).  Note line 321: the
"adjusted" `effective_duration` is exactly `duration_per_image` — no
extension for the transition overlap. -/
def _create_video_with_dissolve (env : Env) (t : ℚ) (zoom blur gpu : Bool) :
    PipelineResult :=
  let dissolve_duration : ℚ := 1
  let effective_duration := t
  let df := (pyInt (effective_duration * 30)).toNat
  match renderClips env zoom blur gpu df effective_duration env.images.enum with
  | (tr, some (name, e)) =>
    ((false, some ("Lỗi xử lý ảnh " ++ name ++ ": " ++ optStr e)), tr)
  | (tr, none) =>
    if env.images.length = 1 then
      let r := _final_encode env (clipName 0) gpu
      (r.1, tr ++ r.2)
    else
      let xf := FfCmd.xfadeChain
        ((List.range env.images.length).map clipName)
        (xfadeParts env.images.length effective_duration dissolve_duration)
        gpu "dissolve_output.mp4"
      match run_ffmpeg_command (env.run xf) with
      | (false, e) =>
        ((false, some ("Lỗi tạo chuyển cảnh: " ++ optStr e)), tr ++ [xf])
      | (true, _) =>
        let r := _final_encode env "dissolve_output.mp4" gpu
        (r.1, tr ++ [xf] ++ r.2)

/-- `create_video_from_images` (lines 112-180). -/
def create_video_from_images (env : Env)
    (enable_zoom enable_blur_bg enable_dissolve : Bool) : PipelineResult :=
  if env.ffmpegOk = false then
    ((false, some "FFmpeg không được cài đặt!"), [])
  else if env.images.isEmpty then
    ((false, some "Không tìm thấy ảnh trong thư mục!"), [])
  else
    let audio_duration := get_audio_duration env.probe
    if audio_duration ≤ 0 then
      ((false, some "Không thể đọc file audio!"), [])
    else
      let duration_per_image := audio_duration / (env.images.length : ℚ)
      let use_gpu := env.nvencOk
      if enable_dissolve then
        _create_video_with_dissolve env duration_per_image
          enable_zoom enable_blur_bg use_gpu
      else
        _create_video_simple env duration_per_image
          enable_zoom enable_blur_bg use_gpu

/-- The frame count a command's filter graph was built with (`none` for
commands that build no per-image filter). -/
def FfCmd.frameCount : FfCmd → Option Nat
  | .clip _ _ _ _ df _ _ => some df
  | _ => none

theorem renderClips_mem (env : Env) (z b g : Bool) (df : Nat) (t : ℚ) :
    ∀ (l : List (Nat × String)) (c : FfCmd), c ∈ (renderClips env z b g df t l).1 →
      ∃ i img, c = FfCmd.clip img t z b df g (clipName i) := by
  intro l
  induction l with
  | nil =>
    intro c hc
    simp [renderClips] at hc
  | cons hd tl ih =>
    obtain ⟨i, img⟩ := hd
    intro c hc
    simp only [renderClips] at hc
    rcases hrun : run_ffmpeg_command (env.run (FfCmd.clip img t z b df g (clipName i)))
      with ⟨ok, e⟩
    rw [hrun] at hc
    cases ok
    · simp at hc
      exact ⟨i, img, hc⟩
    · simp at hc
      rcases hc with rfl | hc
      · exact ⟨i, img, rfl⟩
      · exact ih c hc

theorem renderClips_all_ok (env : Env) (z b g : Bool) (df : Nat) (t : ℚ)
    (hok : ∀ c, env.run c = .ok) :
    ∀ l : List (Nat × String),
      renderClips env z b g df t l =
        (l.map (fun p => FfCmd.clip p.2 t z b df g (clipName p.1)), none) := by
  intro l
  induction l with
  | nil => rfl
  | cons hd tl ih =>
    obtain ⟨i, img⟩ := hd
    simp only [renderClips, hok, run_ffmpeg_command, ih, List.map_cons]

theorem final_encode_trace (env : Env) (v : String) (g : Bool) :
    (_final_encode env v g).2 = [FfCmd.mux v env.audioPath g env.outputPath] := by
  simp only [_final_encode]
  rcases hr : run_ffmpeg_command (env.run (FfCmd.mux v env.audioPath g env.outputPath))
    with ⟨ok, e⟩
  cases ok <;> rfl

theorem final_encode_ok (env : Env) (v : String) (g : Bool)
    (h : env.run (FfCmd.mux v env.audioPath g env.outputPath) = .ok) :
    _final_encode env v g =
      ((true, none), [FfCmd.mux v env.audioPath g env.outputPath]) := by
  simp only [_final_encode, h, run_ffmpeg_command]

theorem simple_trace_shape (env : Env) (t : ℚ) (z b g : Bool) :
    ∀ c ∈ (_create_video_simple env t z b g).2,
      (∃ i img, c = FfCmd.clip img t z b ((pyInt (t * 30)).toNat) g (clipName i)) ∨
      c = FfCmd.concatCopy "concat.txt" "concat_output.mp4" ∨
      c = FfCmd.mux "concat_output.mp4" env.audioPath g env.outputPath := by
  intro c hc
  simp only [_create_video_simple] at hc
  rcases hr : renderClips env z b g ((pyInt (t * 30)).toNat) t env.images.enum
    with ⟨tr, ro⟩
  rw [hr] at hc
  have htr : ∀ c' ∈ tr,
      ∃ i img, c' = FfCmd.clip img t z b ((pyInt (t * 30)).toNat) g (clipName i) := by
    intro c' hc'
    exact renderClips_mem env z b g _ t env.images.enum c' (by rw [hr]; exact hc')
  cases ro with
  | some pr =>
    obtain ⟨name, e⟩ := pr
    simp only at hc
    exact Or.inl (htr c hc)
  | none =>
    rcases hcc : run_ffmpeg_command
        (env.run (FfCmd.concatCopy "concat.txt" "concat_output.mp4")) with ⟨ok, e⟩
    rw [hcc] at hc
    cases ok
    · simp only [List.mem_append, List.mem_singleton] at hc
      rcases hc with hc | rfl
      · exact Or.inl (htr c hc)
      · exact Or.inr (Or.inl rfl)
    · simp only [final_encode_trace, List.append_assoc, List.mem_append,
        List.mem_singleton] at hc
      rcases hc with hc | rfl | rfl
      · exact Or.inl (htr c hc)
      · exact Or.inr (Or.inl rfl)
      · exact Or.inr (Or.inr rfl)

theorem dissolve_trace_shape (env : Env) (t : ℚ) (z b g : Bool) :
    ∀ c ∈ (_create_video_with_dissolve env t z b g).2,
      (∃ i img, c = FfCmd.clip img t z b ((pyInt (t * 30)).toNat) g (clipName i)) ∨
      c = FfCmd.xfadeChain ((List.range env.images.length).map clipName)
          (xfadeParts env.images.length t 1) g "dissolve_output.mp4" ∨
      (∃ v, c = FfCmd.mux v env.audioPath g env.outputPath) := by
  intro c hc
  simp only [_create_video_with_dissolve] at hc
  rcases hr : renderClips env z b g ((pyInt (t * 30)).toNat) t env.images.enum
    with ⟨tr, ro⟩
  rw [hr] at hc
  have htr : ∀ c' ∈ tr,
      ∃ i img, c' = FfCmd.clip img t z b ((pyInt (t * 30)).toNat) g (clipName i) := by
    intro c' hc'
    exact renderClips_mem env z b g _ t env.images.enum c' (by rw [hr]; exact hc')
  cases ro with
  | some pr =>
    obtain ⟨name, e⟩ := pr
    simp only at hc
    exact Or.inl (htr c hc)
  | none =>
    simp only at hc
    by_cases hl : env.images.length = 1
    · rw [if_pos hl] at hc
      simp only [final_encode_trace, List.mem_append, List.mem_singleton] at hc
      rcases hc with hc | rfl
      · exact Or.inl (htr c hc)
      · exact Or.inr (Or.inr ⟨clipName 0, rfl⟩)
    · rw [if_neg hl] at hc
      rcases hxf : run_ffmpeg_command
          (env.run (FfCmd.xfadeChain ((List.range env.images.length).map clipName)
            (xfadeParts env.images.length t 1) g "dissolve_output.mp4"))
        with ⟨ok, e⟩
      rw [hxf] at hc
      cases ok
      · simp only [List.mem_append, List.mem_singleton] at hc
        rcases hc with hc | rfl
        · exact Or.inl (htr c hc)
        · exact Or.inr (Or.inl rfl)
      · simp only [final_encode_trace, List.append_assoc, List.mem_append,
          List.mem_singleton] at hc
        rcases hc with hc | rfl | rfl
        · exact Or.inl (htr c hc)
        · exact Or.inr (Or.inl rfl)
        · exact Or.inr (Or.inr ⟨"dissolve_output.mp4", rfl⟩)

theorem create_trace_shape (env : Env) (z b d : Bool) :
    ∀ c ∈ (create_video_from_images env z b d).2,
      (∃ i img, c = FfCmd.clip img
          (get_audio_duration env.probe / (env.images.length : ℚ)) z b
          ((pyInt (get_audio_duration env.probe / (env.images.length : ℚ) * 30)).toNat)
          env.nvencOk (clipName i)) ∨
      c = FfCmd.concatCopy "concat.txt" "concat_output.mp4" ∨
      c = FfCmd.xfadeChain ((List.range env.images.length).map clipName)
          (xfadeParts env.images.length
            (get_audio_duration env.probe / (env.images.length : ℚ)) 1)
          env.nvencOk "dissolve_output.mp4" ∨
      (∃ v, c = FfCmd.mux v env.audioPath env.nvencOk env.outputPath) := by
  intro c hc
  simp only [create_video_from_images] at hc
  split at hc
  · simp at hc
  split at hc
  · simp at hc
  split at hc
  · simp at hc
  split at hc
  · rcases dissolve_trace_shape env
        (get_audio_duration env.probe / (env.images.length : ℚ)) z b env.nvencOk c hc
      with h | h | h
    · exact Or.inl h
    · exact Or.inr (Or.inr (Or.inl h))
    · exact Or.inr (Or.inr (Or.inr h))
  · rcases simple_trace_shape env
        (get_audio_duration env.probe / (env.images.length : ℚ)) z b env.nvencOk c hc
      with h | h | h
    · exact Or.inl h
    · exact Or.inr (Or.inl h)
    · exact Or.inr (Or.inr (Or.inr ⟨"concat_output.mp4", h⟩))

theorem pyInt_eq_floor {q : ℚ} (h : 0 ≤ q) : pyInt q = ⌊q⌋ := by
  unfold pyInt
  rw [Rat.floor_def]
  exact Int.tdiv_eq_ediv (Rat.num_nonneg.mpr h) (Int.natCast_nonneg q.den)

theorem pyInt_nonneg {q : ℚ} (h : 0 ≤ q) : 0 ≤ pyInt q :=
  Int.tdiv_nonneg (Rat.num_nonneg.mpr h) (Int.natCast_nonneg q.den)

theorem simple_all_ok (env : Env) (t : ℚ) (z b g : Bool)
    (hok : ∀ c, env.run c = .ok) :
    _create_video_simple env t z b g =
      ((true, none),
        (env.images.enum.map (fun p =>
          FfCmd.clip p.2 t z b ((pyInt (t * 30)).toNat) g (clipName p.1))) ++
        [FfCmd.concatCopy "concat.txt" "concat_output.mp4"] ++
        [FfCmd.mux "concat_output.mp4" env.audioPath g env.outputPath]) := by
  simp only [_create_video_simple, renderClips_all_ok env z b g _ t hok,
    hok, run_ffmpeg_command, final_encode_ok env "concat_output.mp4" g (hok _)]

theorem dissolve_all_ok_single (env : Env) (t : ℚ) (z b g : Bool) (img : String)
    (himg : env.images = [img]) (hok : ∀ c, env.run c = .ok) :
    _create_video_with_dissolve env t z b g =
      ((true, none),
        [FfCmd.clip img t z b ((pyInt (t * 30)).toNat) g (clipName 0),
         FfCmd.mux (clipName 0) env.audioPath g env.outputPath]) := by
  simp only [_create_video_with_dissolve, renderClips_all_ok env z b g _ t hok,
    himg, final_encode_ok env (clipName 0) g (hok _)]
  simp

theorem dissolve_all_ok_multi (env : Env) (t : ℚ) (z b g : Bool)
    (hok : ∀ c, env.run c = .ok) (hne : env.images.length ≠ 1) :
    _create_video_with_dissolve env t z b g =
      ((true, none),
        (env.images.enum.map (fun p =>
          FfCmd.clip p.2 t z b ((pyInt (t * 30)).toNat) g (clipName p.1))) ++
        [FfCmd.xfadeChain ((List.range env.images.length).map clipName)
            (xfadeParts env.images.length t 1) g "dissolve_output.mp4"] ++
        [FfCmd.mux "dissolve_output.mp4" env.audioPath g env.outputPath]) := by
  simp only [_create_video_with_dissolve, renderClips_all_ok env z b g _ t hok,
    hok, run_ffmpeg_command, if_neg hne,
    final_encode_ok env "dissolve_output.mp4" g (hok _)]

theorem create_eq_branch (env : Env) (z b d : Bool)
    (hff : env.ffmpegOk = true) (hne : env.images ≠ [])
    (hdur : 0 < get_audio_duration env.probe) :
    create_video_from_images env z b d =
      if d = true then
        _create_video_with_dissolve env
          (get_audio_duration env.probe / (env.images.length : ℚ)) z b env.nvencOk
      else
        _create_video_simple env
          (get_audio_duration env.probe / (env.images.length : ℚ)) z b env.nvencOk := by
  simp only [create_video_from_images]
  rw [if_neg (by simp [hff]), if_neg (by simpa [List.isEmpty_iff] using hne),
    if_neg (not_le.mpr hdur)]

/-- C4: the audio prober maps every failure (parse failure, launch failure,
missing field — all absorbed by the bare `except:`) to the 0.0 sentinel and,
being a total function, never raises; and whenever the probed duration
is ≤ 0, the pipeline entry point returns a failure with an empty
encoder-command trace — before any clip render, assembly or mux command. -/
theorem claim4_zero_duration_guard :
    (∀ e : String, get_audio_duration (Except.error e) = 0) ∧
    ∀ (env : Env) (z b d : Bool),
      get_audio_duration env.probe ≤ 0 →
        (create_video_from_images env z b d).1.1 = false ∧
        (create_video_from_images env z b d).2 = [] := by
  refine ⟨fun e => rfl, ?_⟩
  intro env z b d h
  by_cases h1 : env.ffmpegOk = false
  · simp [create_video_from_images, h1]
  · by_cases h2 : env.images.isEmpty
    · simp [create_video_from_images, h1, h2]
    · simp [create_video_from_images, h1, h2, h]

/-- Environment of the C4 witness: an unreadable audio file. -/
def envC4 : Env :=
  { ffmpegOk := true, nvencOk := false, images := ["a.png"],
    probe := Except.error "unreadable", audioPath := "a.mp3",
    outputPath := "o.mp4", run := fun _ => RunOutcome.ok }

theorem claim4_zero_duration_guard_witness :
    get_audio_duration envC4.probe ≤ 0 ∧
    (create_video_from_images envC4 false false false).1.1 = false ∧
    (create_video_from_images envC4 false false false).2 = [] :=
  ⟨le_of_eq rfl, claim4_zero_duration_guard.2 envC4 false false false (le_of_eq rfl)⟩

/-- Environment of the C1 counterexample: a 3.25-second audio track (exactly
representable in binary floating point) and two images. -/
def envC1 : Env :=
  { ffmpegOk := true, nvencOk := false, images := ["a.png", "b.png"],
    probe := Except.ok (13 / 4), audioPath := "a.mp3",
    outputPath := "o.mp4", run := fun _ => RunOutcome.ok }

/-- C1 counterexample: durationPerImage * fps = 3.25/2 * 30 = 48.75 (exact
in binary floating point); the code's `int()` truncation builds a 48-frame
filter graph while the claimed `round(durationPerImage * fps)` is 49. -/
theorem claim1_counterexample :
    ((create_video_from_images envC1 false false false).2.head?.bind
        FfCmd.frameCount) = some 48 ∧
    round ((13 : ℚ) / 4 / 2 * 30) = 49 ∧
    ((create_video_from_images envC1 false false false).2.head?.bind
        FfCmd.frameCount) ≠ some (round ((13 : ℚ) / 4 / 2 * 30)).toNat := by
  have hD : get_audio_duration envC1.probe = 13 / 4 := rfl
  have hdur : 0 < get_audio_duration envC1.probe := by rw [hD]; norm_num
  have htr := create_eq_branch envC1 false false false rfl (by simp [envC1]) hdur
  rw [if_neg (by simp)] at htr
  rw [simple_all_ok envC1 _ false false envC1.nvencOk (fun c => rfl)] at htr
  have harg : get_audio_duration envC1.probe / (envC1.images.length : ℚ) * 30 =
      195 / 4 := by
    rw [hD]
    show (13 : ℚ) / 4 / ((["a.png", "b.png"].length : ℕ) : ℚ) * 30 = 195 / 4
    norm_num
  have hframes : (pyInt (get_audio_duration envC1.probe /
      (envC1.images.length : ℚ) * 30)).toNat = 48 := by
    rw [harg, pyInt_eq_floor (by norm_num)]
    rw [show ⌊(195 : ℚ) / 4⌋ = 48 by norm_num]
    decide
  have h1 : ((create_video_from_images envC1 false false false).2.head?.bind
      FfCmd.frameCount) = some 48 := by
    rw [htr]
    show some ((pyInt (get_audio_duration envC1.probe /
      (envC1.images.length : ℚ) * 30)).toNat) = some 48
    rw [hframes]
  have h2 : round ((13 : ℚ) / 4 / 2 * 30) = 49 := by rw [round_eq]; norm_num
  refine ⟨h1, h2, ?_⟩
  rw [h1, h2]
  decide

/-- C1 (amended): the per-image frame count used to build the filter graph
is `int(durationPerImage * fps)` — truncation, which for these positive
durations equals the floor of `durationPerImage * 30` — not `round(...)`:
every per-image render command in the trace carries that floor. -/
theorem claim1_frame_count_is_floor (env : Env) (z b d : Bool)
    (hdur : 0 < get_audio_duration env.probe) :
    ∀ c ∈ (create_video_from_images env z b d).2, ∀ df : Nat,
      FfCmd.frameCount c = some df →
      (df : ℤ) = ⌊get_audio_duration env.probe / (env.images.length : ℚ) * 30⌋ := by
  intro c hc df hdf
  rcases create_trace_shape env z b d c hc with ⟨i, img, rfl⟩ | rfl | rfl | ⟨v, rfl⟩
  · simp only [FfCmd.frameCount, Option.some.injEq] at hdf
    subst hdf
    have hlen : (0 : ℚ) ≤ (env.images.length : ℚ) := by positivity
    have ht : 0 ≤ get_audio_duration env.probe / (env.images.length : ℚ) :=
      div_nonneg hdur.le hlen
    have ht30 : 0 ≤ get_audio_duration env.probe / (env.images.length : ℚ) * 30 :=
      mul_nonneg ht (by norm_num)
    rw [Int.toNat_of_nonneg (pyInt_nonneg ht30), pyInt_eq_floor ht30]
  · simp [FfCmd.frameCount] at hdf
  · simp [FfCmd.frameCount] at hdf
  · simp [FfCmd.frameCount] at hdf

theorem claim1_frame_count_is_floor_witness :
    0 < get_audio_duration envC1.probe ∧
    ∀ c ∈ (create_video_from_images envC1 false false false).2, ∀ df : Nat,
      FfCmd.frameCount c = some df →
      (df : ℤ) =
        ⌊get_audio_duration envC1.probe / (envC1.images.length : ℚ) * 30⌋ := by
  have hD : get_audio_duration envC1.probe = 13 / 4 := rfl
  have hdur : 0 < get_audio_duration envC1.probe := by rw [hD]; norm_num
  exact ⟨hdur, claim1_frame_count_is_floor envC1 false false false hdur⟩

/-- C2: with dissolve enabled and N ≥ 2 clips the chain has exactly N-1
cross-fades; the i-th (0-indexed) starts at
`(perImageDuration - 1) + i * (perImageDuration - 1)` (dissolveDuration is
fixed at 1.0); consecutive offsets are spaced by `perImageDuration - 1`,
strictly increasing whenever `perImageDuration > 1`, and for
`perImageDuration = 3` they are 2, 4, 6, …. -/
theorem claim2_xfade_offsets (n : Nat) (eff : ℚ) (hn : 2 ≤ n) :
    (xfadeParts n eff 1).length = n - 1 ∧
    (xfadeParts n eff 1).map XfadePart.offset =
      (List.range (n - 1)).map (fun i : ℕ => (eff - 1) + (i : ℚ) * (eff - 1)) ∧
    List.Chain' (fun a b => b = a + (eff - 1))
      ((xfadeParts n eff 1).map XfadePart.offset) ∧
    (1 < eff →
      List.Chain' (· < ·) ((xfadeParts n eff 1).map XfadePart.offset)) ∧
    (eff = 3 → (xfadeParts n eff 1).map XfadePart.offset =
      (List.range (n - 1)).map (fun i : ℕ => 2 * ((i : ℚ) + 1))) := by
  obtain ⟨m, rfl⟩ : ∃ m, n = m + 2 := ⟨n - 2, by omega⟩
  have hmap : (xfadeParts (m + 2) eff 1).map XfadePart.offset =
      (List.range (m + 1)).map (fun i : ℕ => (eff - 1) + (i : ℚ) * (eff - 1)) := by
    simp only [xfadeParts, List.map_map]
    rfl
  refine ⟨by simp [xfadeParts], hmap, ?_, ?_, ?_⟩
  · rw [hmap, List.chain'_map]
    refine (List.chain'_range_succ _ m).mpr ?_
    intro i hi
    push_cast
    ring
  · intro heff
    rw [hmap, List.chain'_map]
    refine (List.chain'_range_succ _ m).mpr ?_
    intro i hi
    have hpos : 0 < eff - 1 := by linarith
    have key : ((i + 1 : ℕ) : ℚ) * (eff - 1) = (i : ℚ) * (eff - 1) + (eff - 1) := by
      push_cast
      ring
    linarith
  · intro heff
    subst heff
    rw [hmap]
    refine List.map_congr_left ?_
    intro i hi
    ring

theorem claim2_xfade_offsets_witness :
    2 ≤ 4 ∧
    ((xfadeParts 4 3 1).length = 4 - 1 ∧
      (xfadeParts 4 3 1).map XfadePart.offset =
        (List.range (4 - 1)).map (fun i : ℕ => ((3 : ℚ) - 1) + (i : ℚ) * ((3 : ℚ) - 1)) ∧
      List.Chain' (fun a b => b = a + ((3 : ℚ) - 1))
        ((xfadeParts 4 3 1).map XfadePart.offset) ∧
      ((1 : ℚ) < 3 →
        List.Chain' (· < ·) ((xfadeParts 4 3 1).map XfadePart.offset)) ∧
      ((3 : ℚ) = 3 → (xfadeParts 4 3 1).map XfadePart.offset =
        (List.range (4 - 1)).map (fun i : ℕ => 2 * ((i : ℚ) + 1)))) :=
  ⟨by norm_num, claim2_xfade_offsets 4 3 (by norm_num)⟩

/-- C6: with dissolve enabled and exactly one image, the assembled timeline
is the single rendered clip itself, unmodified: the whole encoder trace is
the one clip render followed by the mux whose video input is that very clip
file — no cross-fade command is ever invoked. -/
theorem claim6_single_clip_dissolve (env : Env) (z b : Bool) (img : String)
    (himg : env.images = [img]) (hff : env.ffmpegOk = true)
    (hdur : 0 < get_audio_duration env.probe)
    (hok : ∀ c, env.run c = RunOutcome.ok) :
    create_video_from_images env z b true =
      ((true, none),
        [FfCmd.clip img (get_audio_duration env.probe / (env.images.length : ℚ))
            z b ((pyInt ((get_audio_duration env.probe /
              (env.images.length : ℚ)) * 30)).toNat)
            env.nvencOk (clipName 0),
         FfCmd.mux (clipName 0) env.audioPath env.nvencOk env.outputPath]) := by
  rw [create_eq_branch env z b true hff (by rw [himg]; simp) hdur, if_pos rfl]
  exact dissolve_all_ok_single env _ z b env.nvencOk img himg hok

/-- Environment of the C6 and C8 witnesses: one image, everything healthy. -/
def envC6 : Env :=
  { ffmpegOk := true, nvencOk := false, images := ["solo.png"],
    probe := Except.ok 3, audioPath := "a.mp3",
    outputPath := "o.mp4", run := fun _ => RunOutcome.ok }

theorem claim6_single_clip_dissolve_witness :
    envC6.images = ["solo.png"] ∧ envC6.ffmpegOk = true ∧
    0 < get_audio_duration envC6.probe ∧
    (∀ c, envC6.run c = RunOutcome.ok) ∧
    create_video_from_images envC6 false false true =
      ((true, none),
        [FfCmd.clip "solo.png"
            (get_audio_duration envC6.probe / (envC6.images.length : ℚ))
            false false ((pyInt ((get_audio_duration envC6.probe /
              (envC6.images.length : ℚ)) * 30)).toNat)
            envC6.nvencOk (clipName 0),
         FfCmd.mux (clipName 0) envC6.audioPath envC6.nvencOk envC6.outputPath]) := by
  have h3 : get_audio_duration envC6.probe = 3 := rfl
  have hdur : 0 < get_audio_duration envC6.probe := by rw [h3]; norm_num
  exact ⟨rfl, rfl, hdur, fun c => rfl,
    claim6_single_clip_dissolve envC6 false false "solo.png" rfl rfl hdur
      (fun c => rfl)⟩

/-- C8: the encoder backend is fixed once per job from the NVENC probe
(`use_gpu = check_nvenc()`, before any rendering); every command in the
job's trace that encodes at all does so with that one backend — hardware
`h264_nvenc` when the probe succeeded, software `libx264` otherwise — and
its argument vector names that codec. -/
theorem claim8_backend_chosen_once (env : Env) (z b d : Bool) :
    ∀ c ∈ (create_video_from_images env z b d).2, ∀ g : Bool,
      cmdGpu c = some g →
        g = env.nvencOk ∧
        (if g then "h264_nvenc" else "libx264") ∈ renderArgv c := by
  have hcodec : ∀ (c' : FfCmd) (g' : Bool), cmdGpu c' = some g' →
      (if g' then "h264_nvenc" else "libx264") ∈ renderArgv c' := by
    intro c' g' hg'
    cases c' with
    | clip img t zm bl df gg out =>
      simp only [cmdGpu, Option.some.injEq] at hg'
      subst hg'
      cases gg <;> simp [renderArgv, codecArgs]
    | concatCopy a o => simp [cmdGpu] at hg'
    | xfadeChain i p gg o =>
      simp only [cmdGpu, Option.some.injEq] at hg'
      subst hg'
      cases gg <;> simp [renderArgv, codecArgs]
    | mux v a gg o =>
      simp only [cmdGpu, Option.some.injEq] at hg'
      subst hg'
      cases gg <;> simp [renderArgv]
  intro c hc g hg
  refine ⟨?_, hcodec c g hg⟩
  rcases create_trace_shape env z b d c hc with ⟨i, img, rfl⟩ | rfl | rfl | ⟨v, rfl⟩
  · simp only [cmdGpu, Option.some.injEq] at hg
    exact hg.symm
  · simp [cmdGpu] at hg
  · simp only [cmdGpu, Option.some.injEq] at hg
    exact hg.symm
  · simp only [cmdGpu, Option.some.injEq] at hg
    exact hg.symm

theorem claim8_backend_chosen_once_witness :
    FfCmd.mux (clipName 0) envC6.audioPath envC6.nvencOk envC6.outputPath ∈
      (create_video_from_images envC6 false false true).2 ∧
    cmdGpu (FfCmd.mux (clipName 0) envC6.audioPath envC6.nvencOk
        envC6.outputPath) = some envC6.nvencOk ∧
    (envC6.nvencOk = envC6.nvencOk ∧
      (if envC6.nvencOk then "h264_nvenc" else "libx264") ∈
        renderArgv (FfCmd.mux (clipName 0) envC6.audioPath envC6.nvencOk
          envC6.outputPath)) := by
  have h3 : get_audio_duration envC6.probe = 3 := rfl
  have hdur : 0 < get_audio_duration envC6.probe := by rw [h3]; norm_num
  have htr : create_video_from_images envC6 false false true =
      ((true, none),
        [FfCmd.clip "solo.png"
            (get_audio_duration envC6.probe / (envC6.images.length : ℚ))
            false false ((pyInt ((get_audio_duration envC6.probe /
              (envC6.images.length : ℚ)) * 30)).toNat)
            envC6.nvencOk (clipName 0),
         FfCmd.mux (clipName 0) envC6.audioPath envC6.nvencOk
           envC6.outputPath]) := by
    rw [create_eq_branch envC6 false false true rfl (by simp [envC6]) hdur,
      if_pos rfl]
    exact dissolve_all_ok_single envC6 _ false false envC6.nvencOk "solo.png"
      rfl (fun c => rfl)
  have hmem : FfCmd.mux (clipName 0) envC6.audioPath envC6.nvencOk
      envC6.outputPath ∈ (create_video_from_images envC6 false false true).2 := by
    rw [htr]
    simp
  exact ⟨hmem, rfl,
    claim8_backend_chosen_once envC6 false false true _ hmem envC6.nvencOk rfl⟩

theorem renderClips_first_fail (env : Env) (z b g : Bool) (df : Nat) (t : ℚ)
    (i : Nat) (img : String) (rest : List (Nat × String)) (s : String)
    (hfail : env.run (FfCmd.clip img t z b df g (clipName i)) =
      RunOutcome.fail s) :
    renderClips env z b g df t ((i, img) :: rest) =
      ([FfCmd.clip img t z b df g (clipName i)], some (img, some s)) := by
  simp only [renderClips, hfail, run_ffmpeg_command]

theorem first_clip_fail_msg (env : Env) (z b d : Bool) (img : String)
    (rest : List String) (s : String)
    (himg : env.images = img :: rest) (hff : env.ffmpegOk = true)
    (hdur : 0 < get_audio_duration env.probe)
    (hfail : ∀ c, env.run c = RunOutcome.fail s) :
    (create_video_from_images env z b d).1.2 =
      some ("Lỗi xử lý ảnh " ++ img ++ ": " ++ s) := by
  rw [create_eq_branch env z b d hff (by rw [himg]; simp) hdur]
  cases d
  · rw [if_neg (by simp)]
    simp only [_create_video_simple, himg, List.enum_cons,
      renderClips_first_fail env z b env.nvencOk _ _ 0 img _ s (hfail _), optStr]
  · rw [if_pos rfl]
    simp only [_create_video_with_dissolve, himg, List.enum_cons,
      renderClips_first_fail env z b env.nvencOk _ _ 0 img _ s (hfail _), optStr]

/-- Environment of the C7 counterexample: a render failure whose stderr is
501 characters long. -/
def stderr501 : String := String.mk (List.replicate 501 'x')

def envC7 : Env :=
  { ffmpegOk := true, nvencOk := false, images := ["a.png"],
    probe := Except.ok 3, audioPath := "a.mp3", outputPath := "o.mp4",
    run := fun _ => RunOutcome.fail stderr501 }

/-- C7 counterexample: on this encoder failure the error message returned
to the caller embeds the tool's entire 501-character stderr — it is not an
excerpt truncated to at most 500 characters (its diagnostic part alone
exceeds 500). -/
theorem claim7_counterexample :
    (create_video_from_images envC7 false false false).1.2 =
      some ("Lỗi xử lý ảnh a.png: " ++ stderr501) ∧
    stderr501.length = 501 ∧
    ("Lỗi xử lý ảnh a.png: " ++ stderr501).length =
      "Lỗi xử lý ảnh a.png: ".length + 501 := by
  have h3 : get_audio_duration envC7.probe = 3 := rfl
  have hdur : 0 < get_audio_duration envC7.probe := by rw [h3]; norm_num
  have hlen : stderr501.length = 501 := by
    have h : stderr501.length = (List.replicate 501 'x').length := rfl
    rw [h, List.length_replicate]
  refine ⟨?_, hlen, ?_⟩
  · rw [first_clip_fail_msg envC7 false false false "a.png" [] stderr501 rfl rfl
      hdur (fun c => rfl)]
    rfl
  · rw [String.length_append, hlen]

/-- C7 (amended): on an encoder failure the error-message string returned
to the caller embeds the tool's FULL diagnostic output, with no length
bound; the ≤ 500-character truncation exists only in the optional
progress-callback message inside `run_ffmpeg_command` — and no pipeline
call site passes a callback. -/
theorem claim7_error_embeds_full_stderr (env : Env) (z b d : Bool)
    (img : String) (rest : List String) (s : String)
    (himg : env.images = img :: rest) (hff : env.ffmpegOk = true)
    (hdur : 0 < get_audio_duration env.probe)
    (hfail : ∀ c, env.run c = RunOutcome.fail s) :
    (create_video_from_images env z b d).1.2 =
      some ("Lỗi xử lý ảnh " ++ img ++ ": " ++ s) ∧
    run_ffmpeg_command (RunOutcome.fail s) = (false, some s) ∧
    ffmpegCallbackMsg (RunOutcome.fail s) =
      some ("FFmpeg error: " ++ pyTake500 s) ∧
    (pyTake500 s).length ≤ 500 := by
  refine ⟨first_clip_fail_msg env z b d img rest s himg hff hdur hfail, rfl, rfl, ?_⟩
  show (s.data.take 500).length ≤ 500
  exact List.length_take_le 500 s.data

theorem claim7_error_embeds_full_stderr_witness :
    envC7.images = "a.png" :: [] ∧ envC7.ffmpegOk = true ∧
    0 < get_audio_duration envC7.probe ∧
    (∀ c, envC7.run c = RunOutcome.fail stderr501) ∧
    ((create_video_from_images envC7 false false false).1.2 =
        some ("Lỗi xử lý ảnh " ++ "a.png" ++ ": " ++ stderr501) ∧
      run_ffmpeg_command (RunOutcome.fail stderr501) = (false, some stderr501) ∧
      ffmpegCallbackMsg (RunOutcome.fail stderr501) =
        some ("FFmpeg error: " ++ pyTake500 stderr501) ∧
      (pyTake500 stderr501).length ≤ 500) := by
  have h3 : get_audio_duration envC7.probe = 3 := rfl
  have hdur : 0 < get_audio_duration envC7.probe := by rw [h3]; norm_num
  exact ⟨rfl, rfl, hdur, fun c => rfl,
    claim7_error_embeds_full_stderr envC7 false false false "a.png" [] stderr501
      rfl rfl hdur (fun c => rfl)⟩

/-- Modelled from the documented semantics of FFmpeg's `xfade` filter: one
cross-fade of a timeline with a next clip of duration `clipDur` at offset
`o` produces output of duration `o + clipDur` (the transition overlaps the
tail of the first input), so chaining equal-length clips folds down to the
last offset plus the clip duration. -/
def xfadeChainDuration (clipDur : ℚ) (parts : List XfadePart) : ℚ :=
  parts.foldl (fun _ p => p.offset + clipDur) clipDur

/-- Modelled from `-shortest`: the muxed output lasts as long as the
shorter of the two input streams. -/
def shortestDuration (videoDur audioDur : ℚ) : ℚ := min videoDur audioDur

/-- C10: with dissolve and N ≥ 2 images, every clip is rendered with target
duration exactly durationPerImage (line 321 adds no compensation for the
transition overlap), so the assembled silent timeline lasts
`N*durationPerImage - (N-1)*1.0 = audioDuration - (N-1)` seconds — strictly
less than the audio — and under the muxer's shortest-stream trim the final
output is shorter than the audio track by N-1 seconds. -/
theorem claim10_dissolve_shortfall (env : Env) (z b : Bool) (n : Nat)
    (hn : 2 ≤ n) (hlen : env.images.length = n)
    (hff : env.ffmpegOk = true) (hok : ∀ c, env.run c = RunOutcome.ok)
    (hdur : 0 < get_audio_duration env.probe) :
    (∀ c ∈ (create_video_from_images env z b true).2,
      ∀ img t zm bl df g out, c = FfCmd.clip img t zm bl df g out →
        t = get_audio_duration env.probe / (n : ℚ)) ∧
    xfadeChainDuration (get_audio_duration env.probe / (n : ℚ))
        (xfadeParts n (get_audio_duration env.probe / (n : ℚ)) 1) =
      get_audio_duration env.probe - ((n : ℚ) - 1) ∧
    get_audio_duration env.probe - ((n : ℚ) - 1) <
      get_audio_duration env.probe ∧
    shortestDuration (get_audio_duration env.probe - ((n : ℚ) - 1))
        (get_audio_duration env.probe) =
      get_audio_duration env.probe - ((n : ℚ) - 1) ∧
    get_audio_duration env.probe -
        shortestDuration (get_audio_duration env.probe - ((n : ℚ) - 1))
          (get_audio_duration env.probe) = (n : ℚ) - 1 := by
  have hn2 : (2 : ℚ) ≤ (n : ℚ) := by exact_mod_cast hn
  have hlt : get_audio_duration env.probe - ((n : ℚ) - 1) <
      get_audio_duration env.probe := by linarith
  have hmin : shortestDuration (get_audio_duration env.probe - ((n : ℚ) - 1))
      (get_audio_duration env.probe) =
      get_audio_duration env.probe - ((n : ℚ) - 1) :=
    min_eq_left (by linarith)
  refine ⟨?_, ?_, hlt, hmin, by rw [hmin]; ring⟩
  · intro c hc img t zm bl df g out hceq
    rcases create_trace_shape env z b true c hc with ⟨i, img', rfl⟩ | rfl | rfl | ⟨v, rfl⟩
    · simp only [FfCmd.clip.injEq] at hceq
      rw [← hceq.2.1, hlen]
    · simp at hceq
    · simp at hceq
    · simp at hceq
  · obtain ⟨m, rfl⟩ : ∃ m, n = m + 2 := ⟨n - 2, by omega⟩
    have hval : xfadeChainDuration (get_audio_duration env.probe / ((m + 2 : ℕ) : ℚ))
        (xfadeParts (m + 2) (get_audio_duration env.probe / ((m + 2 : ℕ) : ℚ)) 1) =
        ((get_audio_duration env.probe / ((m + 2 : ℕ) : ℚ) - 1) +
          (m : ℚ) * (get_audio_duration env.probe / ((m + 2 : ℕ) : ℚ) - 1)) +
          get_audio_duration env.probe / ((m + 2 : ℕ) : ℚ) := by
      unfold xfadeChainDuration xfadeParts
      rw [show m + 2 - 1 = m + 1 from rfl, List.range_succ, List.map_append,
        List.foldl_append]
      simp
    rw [hval]
    have hne : ((m + 2 : ℕ) : ℚ) ≠ 0 := by positivity
    field_simp
    ring

/-- Environment of the C10 witness: three images over nine seconds. -/
def envC10 : Env :=
  { ffmpegOk := true, nvencOk := false,
    images := ["a.png", "b.png", "c.png"],
    probe := Except.ok 9, audioPath := "a.mp3", outputPath := "o.mp4",
    run := fun _ => RunOutcome.ok }

theorem claim10_dissolve_shortfall_witness :
    (2 ≤ 3 ∧ envC10.images.length = 3 ∧ envC10.ffmpegOk = true ∧
      (∀ c, envC10.run c = RunOutcome.ok) ∧
      0 < get_audio_duration envC10.probe) ∧
    ((∀ c ∈ (create_video_from_images envC10 false false true).2,
      ∀ img t zm bl df g out, c = FfCmd.clip img t zm bl df g out →
        t = get_audio_duration envC10.probe / (3 : ℚ)) ∧
    xfadeChainDuration (get_audio_duration envC10.probe / (3 : ℚ))
        (xfadeParts 3 (get_audio_duration envC10.probe / (3 : ℚ)) 1) =
      get_audio_duration envC10.probe - ((3 : ℚ) - 1) ∧
    get_audio_duration envC10.probe - ((3 : ℚ) - 1) <
      get_audio_duration envC10.probe ∧
    shortestDuration (get_audio_duration envC10.probe - ((3 : ℚ) - 1))
        (get_audio_duration envC10.probe) =
      get_audio_duration envC10.probe - ((3 : ℚ) - 1) ∧
    get_audio_duration envC10.probe -
        shortestDuration (get_audio_duration envC10.probe - ((3 : ℚ) - 1))
          (get_audio_duration envC10.probe) = (3 : ℚ) - 1) := by
  have h9 : get_audio_duration envC10.probe = 9 := rfl
  have hdur : 0 < get_audio_duration envC10.probe := by rw [h9]; norm_num
  have h := claim10_dissolve_shortfall envC10 false false 3 (by norm_num) rfl rfl
    (fun c => rfl) hdur
  exact ⟨⟨by norm_num, rfl, rfl, fun c => rfl, hdur⟩, by exact_mod_cast h⟩
